import Mathlib

/-!
Verification development for the bp-agi spiking neural engine.

Shallow embedding of the core simulator, translated from the C++ sources:
the Network tick loop (leakage, integration, Razor-gated firing, STDP
plasticity, eligibility decay, chemical decay, panic reset), the Synapse
plasticity and reward operations, the Neuromodulators vector, the
Brain-level noise injection, and the UKS column state machine.

Modelling conventions:
- ints are Lean Int; C++ integer division (truncation toward zero) is
  Int.tdiv; uint32 LCG arithmetic is Nat modulo 2 to the 32; int8 overflow
  (wrap before the chemicals clamp) is explicit via int8wrap.
- the contiguous synapse arena and the dynamic overflow map are folded into
  one list of synapses tagged with their pre-neuron id: every modelled
  operation (integration, plasticity sweeps, reward, trace decay) either
  traverses both stores exhaustively or aggregates commutatively, so the
  split storage is behaviourally irrelevant here.
- unordered sets of fired neuron ids are lists with membership-guarded
  insertion (only membership and cardinality are observed).
- the spike priority queue is a list of (neuron, tick) events; retrieval
  mimics the pop-while-top-tick-matches loop of SpikeQueue.
- std::nth_element inside the Razor leaves an implementation-defined
  arrangement; the firing phase is therefore parameterised by a selection
  function, and validSelect captures exactly the postcondition the C++
  standard guarantees for the call site in Network::firingPhase.
-/

set_option maxRecDepth 4096

namespace BPAGI

/-- WEIGHT_MIN from types.hpp. -/
def WEIGHT_MIN : Int := -16

/-- WEIGHT_MAX from types.hpp. -/
def WEIGHT_MAX : Int := 16

/-- STDP_WINDOW from types.hpp. -/
def STDP_WINDOW : Int := 20

/-- ELIGIBILITY_MAX from synapse.hpp. -/
def ELIGIBILITY_MAX : Int := 100

/-- ELIGIBILITY_DECAY from synapse.hpp. -/
def ELIGIBILITY_DECAY : Int := 1

/-- REWARD_SCALE_FACTOR from synapse.hpp. -/
def REWARD_SCALE_FACTOR : Int := 50

/-- std::clamp of a weight to [WEIGHT_MIN, WEIGHT_MAX] (Synapse::clampWeight). -/
def clampWeight (w : Int) : Int := max WEIGHT_MIN (min WEIGHT_MAX w)

/-- Neuron struct from neuron.hpp (synapse bookkeeping fields are represented
by the pre-neuron tag on each synapse instead of arena indices). -/
structure Neuron where
  currentCharge : Int
  leakRate : Int
  threshold : Int
  lastFiredStep : Int
  refractoryDelay : Int
deriving Repr, DecidableEq

/-- Neuron::isRefractory: (currentTick - lastFiredStep) <= refractoryDelay. -/
def Neuron.isRefractory (n : Neuron) (t : Int) : Bool :=
  t - n.lastFiredStep ≤ n.refractoryDelay

/-- Neuron::applyLeak: currentCharge = max(CHARGE_MIN, currentCharge - leakRate). -/
def Neuron.applyLeak (n : Neuron) : Neuron :=
  { n with currentCharge := max 0 (n.currentCharge - n.leakRate) }

/-- Neuron::reset: zero the charge, restore lastFiredStep = -refractory - 1. -/
def Neuron.reset (n : Neuron) : Neuron :=
  { n with currentCharge := 0, lastFiredStep := -n.refractoryDelay - 1 }

/-- Synapse struct from synapse.hpp, tagged with its pre-synaptic neuron id
(the owner that the arena index / overflow-map key encodes in the source). -/
structure Synapse where
  pre : Nat
  targetNeuronIndex : Nat
  weight : Int
  isHebbian : Bool
  eligibilityTrace : Int
deriving Repr, DecidableEq

/-- calculateSTDPDelta from synapse.cpp: zero at deltaT = 0 or outside the
window, otherwise sign(deltaT) * (2 * (STDP_WINDOW - |deltaT|)) / STDP_WINDOW. -/
def calculateSTDPDelta (deltaT : Int) : Int :=
  if deltaT = 0 then 0
  else
    let absDelta : Int := |deltaT|
    if STDP_WINDOW < absDelta then 0
    else
      let magnitude := Int.tdiv (2 * (STDP_WINDOW - absDelta)) STDP_WINDOW
      if 0 < deltaT then magnitude else -magnitude

/-- Synapse::markEligible: on a causal pairing (0 < deltaT <= STDP_WINDOW) of a
plastic synapse, set the eligibility trace to ELIGIBILITY_MAX. -/
def Synapse.markEligible (s : Synapse) (preFired postFired : Int) : Synapse :=
  if s.isHebbian = false then s
  else
    let deltaT := postFired - preFired
    if 0 < deltaT ∧ deltaT ≤ STDP_WINDOW then
      { s with eligibilityTrace := ELIGIBILITY_MAX }
    else s

/-- Synapse::updateWeight: immediate STDP update of a plastic synapse. -/
def Synapse.updateWeight (s : Synapse) (preFired postFired : Int) : Synapse :=
  if s.isHebbian = false then s
  else { s with weight := clampWeight (s.weight + calculateSTDPDelta (postFired - preFired)) }

/-- Synapse::decayEligibility: decrement a positive trace by ELIGIBILITY_DECAY,
saturating at zero. -/
def Synapse.decayEligibility (s : Synapse) : Synapse :=
  if 0 < s.eligibilityTrace then
    let t := s.eligibilityTrace - ELIGIBILITY_DECAY
    { s with eligibilityTrace := if t < 0 then 0 else t }
  else s

/-- Synapse::applyReward: a plastic synapse with a positive trace gains
clamp(trace * reward / REWARD_SCALE_FACTOR, -16, 16) (then the weight is
clamped) and its trace is cleared; anything else is untouched. -/
def Synapse.applyReward (s : Synapse) (rewardAmount : Int) : Synapse :=
  if s.isHebbian = false ∨ s.eligibilityTrace ≤ 0 then s
  else
    let delta := Int.tdiv (s.eligibilityTrace * rewardAmount) REWARD_SCALE_FACTOR
    { s with
      weight := clampWeight (s.weight + max (-16) (min 16 delta)),
      eligibilityTrace := 0 }

/-- Conversion of a mathematical integer to the int8_t value it becomes when a
C++ int is narrowed (two's complement wrap into [-128, 127]). -/
def int8wrap (x : Int) : Int := (x + 128) % 256 - 128

/-- The per-channel clamp of Neuromodulators::clamp: into [0, 100]. -/
def clampChem (x : Int) : Int := if x < 0 then 0 else if 100 < x then 100 else x

/-- Neuromodulators from types.hpp: four int8_t channels. -/
structure Neuromodulators where
  dopamine : Int
  norepinephrine : Int
  serotonin : Int
  acetylcholine : Int
deriving Repr, DecidableEq

/-- The baseline constructor state (DA 50, NE 30, 5-HT 50, ACh 50). -/
def Neuromodulators.init : Neuromodulators :=
  { dopamine := 50, norepinephrine := 30, serotonin := 50, acetylcholine := 50 }

/-- Neuromodulators::clamp applied to all four channels. -/
def Neuromodulators.clamp (c : Neuromodulators) : Neuromodulators :=
  { dopamine := clampChem c.dopamine
    norepinephrine := clampChem c.norepinephrine
    serotonin := clampChem c.serotonin
    acetylcholine := clampChem c.acetylcholine }

/-- Neuromodulators::decay: each channel moves one step toward its baseline
(DA 50, NE 30, 5-HT 50, ACh 50). -/
def Neuromodulators.decay (c : Neuromodulators) : Neuromodulators :=
  { dopamine :=
      if 50 < c.dopamine then c.dopamine - 1
      else if c.dopamine < 50 then c.dopamine + 1 else c.dopamine
    norepinephrine :=
      if 30 < c.norepinephrine then c.norepinephrine - 1
      else if c.norepinephrine < 30 then c.norepinephrine + 1 else c.norepinephrine
    serotonin :=
      if 50 < c.serotonin then c.serotonin - 1
      else if c.serotonin < 50 then c.serotonin + 1 else c.serotonin
    acetylcholine :=
      if 50 < c.acetylcholine then c.acetylcholine - 1
      else if c.acetylcholine < 50 then c.acetylcholine + 1 else c.acetylcholine }

/-- Neuromodulators::spikeDopamine: the int8_t += (which wraps) then clamp. -/
def Neuromodulators.spikeDopamine (c : Neuromodulators) (amount : Int) : Neuromodulators :=
  Neuromodulators.clamp { c with dopamine := int8wrap (c.dopamine + amount) }

/-- Neuromodulators::spikeNorepinephrine: int8_t += then clamp. -/
def Neuromodulators.spikeNorepinephrine (c : Neuromodulators) (amount : Int) : Neuromodulators :=
  Neuromodulators.clamp { c with norepinephrine := int8wrap (c.norepinephrine + amount) }

/-- Neuromodulators::spikeSerotonin: int8_t += then clamp. -/
def Neuromodulators.spikeSerotonin (c : Neuromodulators) (amount : Int) : Neuromodulators :=
  Neuromodulators.clamp { c with serotonin := int8wrap (c.serotonin + amount) }

/-- Neuromodulators::spikeAcetylcholine: int8_t += then clamp. -/
def Neuromodulators.spikeAcetylcholine (c : Neuromodulators) (amount : Int) : Neuromodulators :=
  Neuromodulators.clamp { c with acetylcholine := int8wrap (c.acetylcholine + amount) }

/-- Pointwise update of the i-th element of a list (models in-place mutation of
one vector slot; out-of-range indices are untouched, matching the guarded call
sites). -/
def modifyIdx (f : α → α) : Nat → List α → List α
  | _, [] => []
  | 0, x :: xs => f x :: xs
  | n + 1, x :: xs => x :: modifyIdx f n xs

/-- Set-semantics insertion into the fired-this-tick container
(std::unordered_set::insert observed through membership and size). -/
def insertFired (l : List Nat) (i : Nat) : List Nat :=
  if i ∈ l then l else l ++ [i]

/-- SpikeQueue::getSpikesForTick: pop while the earliest-tick top matches the
requested tick. If any queued spike has an earlier tick the loop never pops
(the top has a different tick); otherwise exactly the spikes of that tick are
drained. Returns (popped neuron ids, remaining queue). -/
def popSpikesForTick (q : List (Nat × Int)) (t : Int) : List Nat × List (Nat × Int) :=
  if q.all (fun s => decide (t ≤ s.2)) then
    ((q.filter (fun s => s.2 == t)).map Prod.fst, q.filter (fun s => !(s.2 == t)))
  else ([], q)

/-- Network state from network.hpp. The contiguous arena and the dynamic
overflow map are folded into the single pre-tagged synapse list; the
refractory bitmap is recomputed from the neuron array at the start of each
tick exactly as Network::updateRefractoryBits does. -/
structure Network where
  currentTick : Int
  plasticityEnabled : Bool
  operantMode : Bool
  razorEnabled : Bool
  maxSpikesPerTick : Nat
  lastCandidateCount : Nat
  chemicals : Neuromodulators
  neurons : List Neuron
  synapses : List Synapse
  spikeQueue : List (Nat × Int)
  firedThisTick : List Nat
  firedLastTick : List Nat
deriving Repr, DecidableEq

/-- Network::Network(numNeurons, maxSynapses): empty arenas, tick 0, plasticity
on, Pavlovian mode, Razor per Config::ENABLE_RAZOR (true), baseline chemicals. -/
def Network.new (maxSpikes : Nat) : Network :=
  { currentTick := 0, plasticityEnabled := true, operantMode := false,
    razorEnabled := true, maxSpikesPerTick := maxSpikes, lastCandidateCount := 0,
    chemicals := Neuromodulators.init, neurons := [], synapses := [],
    spikeQueue := [], firedThisTick := [], firedLastTick := [] }

/-- Network::addNeuron: append a fresh neuron, return its id. -/
def Network.addNeuron (net : Network) (threshold leak refractory : Int) : Network × Nat :=
  ({ net with neurons := net.neurons ++
      [{ currentCharge := 0, leakRate := leak, threshold := threshold,
         lastFiredStep := -refractory - 1, refractoryDelay := refractory }] },
   net.neurons.length)

/-- Network::connectNeurons: validate both ids, then append the synapse (the
constructor clamps the weight). Whether the synapse lands in the contiguous
arena or the overflow map does not change any modelled observation. -/
def Network.connectNeurons (net : Network) (src dst : Nat) (weight : Int) (plastic : Bool) :
    Network × Bool :=
  if net.neurons.length ≤ src ∨ net.neurons.length ≤ dst then (net, false)
  else
    ({ net with synapses := net.synapses ++
        [{ pre := src, targetNeuronIndex := dst, weight := clampWeight weight,
           isHebbian := plastic, eligibilityTrace := 0 }] },
     true)

/-- Network::injectSpike: guard the id, enqueue at the current tick, record in
fired-this-tick, stamp the neuron's lastFiredStep. -/
def Network.injectSpike (net : Network) (neuron : Nat) : Network :=
  if neuron < net.neurons.length then
    { net with
      spikeQueue := net.spikeQueue ++ [(neuron, net.currentTick)],
      firedThisTick := insertFired net.firedThisTick neuron,
      neurons := modifyIdx (fun n => { n with lastFiredStep := net.currentTick }) neuron net.neurons }
  else net

/-- Network::injectCharge: guard the id, add the (possibly negative) amount to
the membrane potential with no clamping. -/
def Network.injectCharge (net : Network) (neuron : Nat) (amount : Int) : Network :=
  if neuron < net.neurons.length then
    { net with neurons :=
        modifyIdx (fun n => { n with currentCharge := n.currentCharge + amount }) neuron net.neurons }
  else net

/-- Network::didFire: membership in fired-this-tick. -/
def Network.didFire (net : Network) (neuron : Nat) : Bool :=
  neuron ∈ net.firedThisTick

/-- Network::getCharge: the membrane potential, 0 for out-of-range ids. -/
def Network.getCharge (net : Network) (neuron : Nat) : Int :=
  match net.neurons[neuron]? with
  | some n => n.currentCharge
  | none => 0

/-- Network::injectReward: apply the reward to every synapse in both stores. -/
def Network.injectReward (net : Network) (amount : Int) : Network :=
  { net with synapses := net.synapses.map (fun s => s.applyReward amount) }

/-- Network::reset: tick 0, fired sets and queue cleared, every neuron reset;
synapses are not touched. -/
def Network.reset (net : Network) : Network :=
  { net with
    currentTick := 0, firedThisTick := [], firedLastTick := [],
    spikeQueue := [], neurons := net.neurons.map Neuron.reset }

/-- Network::surpriseSignal: spike norepinephrine. -/
def Network.surpriseSignal (net : Network) (amount : Int) : Network :=
  { net with chemicals := net.chemicals.spikeNorepinephrine amount }

/-- Network::calmSignal: spike serotonin. -/
def Network.calmSignal (net : Network) (amount : Int) : Network :=
  { net with chemicals := net.chemicals.spikeSerotonin amount }

/-- Network::panicReset: zero all membrane potentials, clear the queue and both
fired sets, force NE to 70. -/
def Network.panicReset (net : Network) : Network :=
  { net with
    neurons := net.neurons.map (fun n => { n with currentCharge := 0 }),
    spikeQueue := [], firedThisTick := [], firedLastTick := [],
    chemicals := { net.chemicals with norepinephrine := 70 } }

/-- The refractory snapshot taken at the start of a tick
(Network::updateRefractoryBits rebuilt from the neuron array). -/
def refrSnapshot (ns : List Neuron) (t : Int) : Nat → Bool := fun i =>
  match ns[i]? with
  | some n => n.isRefractory t
  | none => false

/-- The per-neuron body of Network::leakagePhase: skip refractory neurons,
apply the leak, then subtract the serotonin bonus clamped at zero. -/
def leakNeuron (serotoninBonus : Int) (t : Int) (n : Neuron) : Neuron :=
  if n.isRefractory t then n
  else
    let n1 := n.applyLeak
    if 0 < serotoninBonus ∧ 0 < n1.currentCharge then
      let c := n1.currentCharge - serotoninBonus
      { n1 with currentCharge := if c < 0 then 0 else c }
    else n1

/-- Network::leakagePhase with serotoninBonus = serotonin / 10. The OpenMP
path partitions the same independent per-neuron updates. -/
def leakagePhase (net : Network) : Network :=
  { net with neurons :=
      net.neurons.map (leakNeuron (Int.tdiv net.chemicals.serotonin 10) net.currentTick) }

/-- One synapse delivery inside Network::integrationPhase: add the weight to an
in-range, non-refractory target. -/
def deliverSynapse (numNeurons : Nat) (refr : Nat → Bool) (ns : List Neuron) (syn : Synapse) :
    List Neuron :=
  if syn.targetNeuronIndex < numNeurons ∧ !refr syn.targetNeuronIndex then
    modifyIdx (fun n => { n with currentCharge := n.currentCharge + syn.weight })
      syn.targetNeuronIndex ns
  else ns

/-- Delivery of one popped spike: skip out-of-range pre ids, then traverse the
pre-neuron's outgoing synapses (contiguous then overflow in the source; their
deliveries commute, so the fold over the filtered list is equivalent). -/
def deliverSpike (numNeurons : Nat) (refr : Nat → Bool) (synapses : List Synapse)
    (ns : List Neuron) (preId : Nat) : List Neuron :=
  if numNeurons ≤ preId then ns
  else (synapses.filter (fun s => s.pre == preId)).foldl (deliverSynapse numNeurons refr) ns

/-- Network::integrationPhase: pop the spikes of tick (currentTick - 1) and
deliver each through the pre-neuron's outgoing synapses. -/
def integrationPhase (refr : Nat → Bool) (net : Network) : Network :=
  let pr := popSpikesForTick net.spikeQueue (net.currentTick - 1)
  { net with
    neurons := pr.1.foldl (deliverSpike net.neurons.length refr net.synapses) net.neurons,
    spikeQueue := pr.2 }

/-- The uint32 narrowing of the tick-based seed initialiser in
Network::firingPhase: (uint32_t)(tick * 1103515245 + 12345). -/
def seed0 (t : Int) : Nat := ((t * 1103515245 + 12345) % 4294967296).toNat

/-- One advance of the hand-rolled LCG on uint32: seed * 1103515245 + 12345. -/
def lcg (s : Nat) : Nat := (s * 1103515245 + 12345) % 4294967296

/-- k-fold iteration of the LCG. -/
def lcgIter : Nat → Nat → Nat
  | 0, s => s
  | k + 1, s => lcgIter k (lcg s)

/-- The firing-phase noise extraction: (int)((seed >> 16) & 0xFF) % (2A+1) - A. -/
def noiseOf (a : Nat) (s : Nat) : Int :=
  (((s >>> 16) &&& 255) % (2 * a + 1) : Nat) - (a : Int)

/-- The effective threshold of Network::firingPhase: threshold minus the NE
reduction plus noise, floored at 1. -/
def effThreshold (threshold : Int) (thrRed : Int) (noise : Int) : Int :=
  let e := threshold - thrRed + noise
  if e < 1 then 1 else e

/-- The sequential candidate-collection loop of Network::firingPhase: walk the
neuron array in id order threading the noise seed, which advances once per
non-refractory neuron when the noise amplitude is positive; collect
(charge, id) for every neuron at or above its effective threshold. -/
def collectCandsAux (t : Int) (thrRed : Int) (a : Nat) :
    List Neuron → Nat → Nat → List (Int × Nat)
  | [], _, _ => []
  | n :: rest, id, seed =>
    if n.isRefractory t then collectCandsAux t thrRed a rest (id + 1) seed
    else
      let seed' := if 0 < a then lcg seed else seed
      let noise : Int := if 0 < a then noiseOf a seed' else 0
      let eff := effThreshold n.threshold thrRed noise
      let rest' := collectCandsAux t thrRed a rest (id + 1) seed'
      if eff ≤ n.currentCharge then (n.currentCharge, id) :: rest' else rest'

/-- The NE-driven threshold reduction of Network::firingPhase: NE / 5. -/
def thresholdReduction (ne : Int) : Int := Int.tdiv ne 5

/-- The NE-driven noise amplitude of Network::firingPhase:
(NE - 60) / 4 when NE > 60, else 0. -/
def noiseAmplitude (ne : Int) : Nat :=
  if 60 < ne then (Int.tdiv (ne - 60) 4).toNat else 0

/-- The candidate list of Network::firingPhase at the current state. -/
def firingCandidates (net : Network) : List (Int × Nat) :=
  collectCandsAux net.currentTick (thresholdReduction net.chemicals.norepinephrine)
    (noiseAmplitude net.chemicals.norepinephrine) net.neurons 0 (seed0 net.currentTick)

/-- Firing one Razor winner: zero its charge, stamp lastFiredStep, enqueue its
outgoing spike at the current tick, record it in fired-this-tick. -/
def fireWinner (t : Int) (net : Network) (w : Int × Nat) : Network :=
  { net with
    neurons := modifyIdx (fun n => { n with currentCharge := 0, lastFiredStep := t })
      w.2 net.neurons,
    spikeQueue := net.spikeQueue ++ [(w.2, t)],
    firedThisTick := insertFired net.firedThisTick w.2 }

/-- Network::firingPhase parameterised by the partial-selection routine `sel`
standing for std::nth_element followed by resize(K): collect candidates,
apply the Razor cut when enabled and oversubscribed, fire the winners. -/
def Network.firingPhase (sel : List (Int × Nat) → Nat → List (Int × Nat)) (net : Network) :
    Network :=
  let cands := firingCandidates net
  let net1 := { net with lastCandidateCount := cands.length }
  let winners :=
    if net.razorEnabled ∧ net.maxSpikesPerTick < cands.length
    then sel cands net.maxSpikesPerTick else cands
  winners.foldl (fireWinner net.currentTick) net1

/-- The applySTDP lambda of Network::plasticityPhase: dispatch on operant mode
to markEligible or updateWeight using the two neurons' lastFiredStep stamps. -/
def applySTDP (operant : Bool) (ns : List Neuron) (preId postId : Nat) (s : Synapse) : Synapse :=
  match ns[preId]?, ns[postId]? with
  | some pre, some post =>
    if operant then s.markEligible pre.lastFiredStep post.lastFiredStep
    else s.updateWeight pre.lastFiredStep post.lastFiredStep
  | _, _ => s

/-- The LTP sweep body: for a pre-neuron that fired last tick, update each of
its synapses whose target fired this tick. -/
def ltpForPre (operant : Bool) (ns : List Neuron) (firedThis : List Nat) (preId : Nat)
    (s : Synapse) : Synapse :=
  if s.pre == preId ∧ s.targetNeuronIndex ∈ firedThis then
    applySTDP operant ns preId s.targetNeuronIndex s
  else s

/-- The Pavlovian LTD sweep body: for a pre-neuron that fired this tick, a
plastic synapse whose target fired last tick gets an updateWeight when the
recomputed deltaT is strictly causal-in-reverse and inside the window. -/
def ltdForPre (ns : List Neuron) (firedLast : List Nat) (preId : Nat) (s : Synapse) : Synapse :=
  if s.pre == preId ∧ s.isHebbian ∧ s.targetNeuronIndex ∈ firedLast then
    match ns[preId]?, ns[s.targetNeuronIndex]? with
    | some pre, some post =>
      let deltaT := post.lastFiredStep - pre.lastFiredStep
      if deltaT < 0 ∧ |deltaT| ≤ STDP_WINDOW then
        s.updateWeight pre.lastFiredStep post.lastFiredStep
      else s
    | _, _ => s
  else s

/-- Network::plasticityPhase: gated on dopamine >= 10; the LTP sweep over the
pre-neurons that fired last tick, then (Pavlovian only) the LTD sweep over the
pre-neurons that fired this tick. -/
def plasticityPhase (net : Network) : Network :=
  if net.chemicals.dopamine < 10 then net
  else
    let syns1 := net.firedLastTick.foldl
      (fun syns preId => syns.map (ltpForPre net.operantMode net.neurons net.firedThisTick preId))
      net.synapses
    let syns2 :=
      if !net.operantMode then
        net.firedThisTick.foldl
          (fun syns preId => syns.map (ltdForPre net.neurons net.firedLastTick preId)) syns1
      else syns1
    { net with synapses := syns2 }

/-- The opening housekeeping of Network::step: move fired-this-tick to
fired-last-tick and clear it. -/
def stepBegin (net : Network) : Network :=
  { net with firedLastTick := net.firedThisTick, firedThisTick := [] }

/-- Stage 4 of Network::step: the plasticity phase, gated on the global
plasticity switch. -/
def stepPlasticityGate (net : Network) : Network :=
  if net.plasticityEnabled then plasticityPhase net else net

/-- Stage 5 of Network::step: in operant mode decay every eligibility trace. -/
def stepTraceDecay (net : Network) : Network :=
  if net.operantMode then
    { net with synapses := net.synapses.map Synapse.decayEligibility }
  else net

/-- Stage 6 of Network::step: homeostatic decay of the chemicals. -/
def stepChemDecay (net : Network) : Network :=
  { net with chemicals := net.chemicals.decay }

/-- Stage 7 of Network::step: the emergency interrupt when NE has reached 95
(checked after the chemical decay). -/
def stepPanicCheck (net : Network) : Network :=
  if 95 ≤ net.chemicals.norepinephrine then net.panicReset else net

/-- The closing currentTick++ of Network::step. -/
def stepTickAdvance (net : Network) : Network :=
  { net with currentTick := net.currentTick + 1 }

/-- Network::step: move the fired sets, snapshot refractoriness, then the
phases in order (leakage, integration, firing, plasticity, eligibility decay,
chemical decay, panic check), finally advance the tick. SpikeQueue::advanceTick
only clears an auxiliary current-fired mirror that no modelled probe reads. -/
def Network.step (sel : List (Int × Nat) → Nat → List (Int × Nat)) (net : Network) : Network :=
  stepTickAdvance (stepPanicCheck (stepChemDecay (stepTraceDecay (stepPlasticityGate
    (Network.firingPhase sel
      (integrationPhase (refrSnapshot (stepBegin net).neurons (stepBegin net).currentTick)
        (leakagePhase (stepBegin net))))))))

/-- Network::rewardSignal: spike dopamine; in operant mode also flood a reward
of amount / 10 through the synapses. -/
def Network.rewardSignal (net : Network) (amount : Int) : Network :=
  let net1 := { net with chemicals := net.chemicals.spikeDopamine amount }
  if net1.operantMode then net1.injectReward (Int.tdiv amount 10) else net1

/-- CorticalColumn struct from cortical_column.hpp. -/
structure CorticalColumn where
  columnId : Nat
  inputNeurons : List Nat
  pyramidalNeurons : List Nat
  outputNeuron : Nat
  inhibitoryNeuron : Nat
  isAllocated : Bool
  isActive : Bool
  boostValue : Int
  allocatedAtTick : Int
  activationCount : Nat
deriving Repr, DecidableEq

/-- UKS::Config from uks.hpp. -/
structure UKSConfig where
  numColumns : Nat
  busWidth : Nat
  recognitionThreshold : Int
  enableLearning : Bool
deriving Repr, DecidableEq

/-- UKS state from uks.hpp (the network it drives is passed explicitly). -/
structure UKS where
  config : UKSConfig
  columns : List CorticalColumn
  busNeurons : List Nat
  requestNeuron : Nat
  globalInhibitor : Nat
  currentInput : List Nat
  activeColumn : Option Nat
  requestFired : Bool
  totalAllocations : Nat
  totalRecognitions : Nat
deriving Repr, DecidableEq

/-- UKS::getAllocatedCount: the number of allocated columns. -/
def UKS.getAllocatedCount (uks : UKS) : Nat :=
  uks.columns.countP (fun c => c.isAllocated)

/-- UKS::getRespondingColumns: indices of allocated columns whose output neuron
fired, in ascending column order. -/
def UKS.getRespondingColumns (uks : UKS) (net : Network) : List Nat :=
  (List.range uks.columns.length).filter (fun i =>
    match uks.columns[i]? with
    | some c => c.isAllocated && net.didFire c.outputNeuron
    | none => false)

/-- The scan loop of UKS::findFreeColumn. -/
def findFreeAux : List CorticalColumn → Nat → Option Nat
  | [], _ => none
  | c :: rest, i => if !c.isAllocated then some i else findFreeAux rest (i + 1)

/-- UKS::findFreeColumn: the lowest-index unallocated column. -/
def UKS.findFreeColumn (uks : UKS) : Option Nat :=
  findFreeAux uks.columns 0

/-- UKS::suppressOthers: inject -10 into the output neuron of every other
still-free column. -/
def UKS.suppressOthers (uks : UKS) (net : Network) (winnerId : Nat) : Network :=
  (List.range uks.columns.length).foldl
    (fun acc i =>
      if i ≠ winnerId then
        match uks.columns[i]? with
        | some c => if !c.isAllocated then acc.injectCharge c.outputNeuron (-10) else acc
        | none => acc
      else acc)
    net

/-- UKS::allocateColumn: mark the column allocated at the current tick, wire
every bus neuron to each of the column's input neurons (weight +1 for pattern
members, WEIGHT_MIN otherwise, non-plastic), then suppress the other free
columns. -/
def UKS.allocateColumn (uks : UKS) (net : Network) (columnId : Nat) (pattern : List Nat) :
    UKS × Network :=
  match uks.columns[columnId]? with
  | none => (uks, net)
  | some col =>
    let uks1 := { uks with
      columns := modifyIdx
        (fun c => { c with isAllocated := true, allocatedAtTick := net.currentTick })
        columnId uks.columns,
      totalAllocations := uks.totalAllocations + 1 }
    let net1 := uks.busNeurons.enum.foldl
      (fun acc bi =>
        let w : Int := if bi.1 ∈ pattern then 1 else WEIGHT_MIN
        col.inputNeurons.foldl (fun a inp => (a.connectNeurons bi.2 inp w false).1) acc)
      net
    (uks1, uks1.suppressOthers net1 columnId)

/-- The closing loop of UKS::step: refresh every column's isActive flag from
CorticalColumn::checkActive (did its output neuron fire). -/
def UKS.updateActiveFlags (uks : UKS) (net : Network) : UKS :=
  { uks with columns :=
      uks.columns.map (fun c => { c with isActive := net.didFire c.outputNeuron }) }

/-- UKS::step: recognition when some allocated column's output fired (first
responder becomes active, DA +10); otherwise, if the Request neuron fired,
surprise (NE +50, ACh +30) and - with learning enabled and a non-empty current
input - allocate the lowest-index free column, make it active, spike DA +30
and clear the input; otherwise idle (5-HT +5, ACh drift down by 2 above 30).
Finally refresh the per-column active flags. -/
def UKS.step (uks : UKS) (net : Network) : UKS × Network :=
  match uks.getRespondingColumns net with
  | i :: _ =>
    let uks1 := { uks with
      activeColumn := some i,
      columns := modifyIdx
        (fun c => { c with isActive := true, activationCount := c.activationCount + 1 })
        i uks.columns,
      totalRecognitions := uks.totalRecognitions + 1,
      requestFired := false }
    let net1 := { net with chemicals := net.chemicals.spikeDopamine 10 }
    (uks1.updateActiveFlags net1, net1)
  | [] =>
    if net.didFire uks.requestNeuron then
      let net1 := (net.surpriseSignal 50)
      let net2 := { net1 with chemicals := net1.chemicals.spikeAcetylcholine 30 }
      let uks1 := { uks with requestFired := true }
      if uks.config.enableLearning ∧ uks.currentInput ≠ [] then
        match uks1.findFreeColumn with
        | some free =>
          let pr := uks1.allocateColumn net2 free uks.currentInput
          let uks2 := { pr.1 with activeColumn := some free, currentInput := [] }
          let net3 := { pr.2 with chemicals := pr.2.chemicals.spikeDopamine 30 }
          (uks2.updateActiveFlags net3, net3)
        | none => (uks1.updateActiveFlags net2, net2)
      else (uks1.updateActiveFlags net2, net2)
    else
      let uks1 := { uks with requestFired := false }
      let net1 := net.calmSignal 5
      let net2 :=
        if 30 < net1.chemicals.acetylcholine then
          { net1 with chemicals :=
              { net1.chemicals with acetylcholine := net1.chemicals.acetylcholine - 2 } }
        else net1
      (uks1.updateActiveFlags net2, net2)

/-- The noise extraction of Brain::injectNoise:
(int)((seed >> 16) & 0x7FFF) % (2 * amplitude + 1) - amplitude. -/
def noiseOf15 (amplitude : Nat) (s : Nat) : Int :=
  (((s >>> 16) &&& 32767) % (2 * amplitude + 1) : Nat) - (amplitude : Int)

/-- The loop of Brain::injectNoise over the given neuron ids, threading the
persistent LCG seed: advance the seed, derive the noise, inject it. -/
def injectNoiseAux (amplitude : Nat) : List Nat → Network → Nat → Network × Nat
  | [], net, seed => (net, seed)
  | i :: rest, net, seed =>
    let seed' := lcg seed
    injectNoiseAux amplitude rest (net.injectCharge i (noiseOf15 amplitude seed')) seed'

/-- Brain::injectNoise: visit every neuron in id order. The seed argument and
result model the function-local `static uint32_t seed` that persists across
calls (initialised to 12345 at program start) and is shared by every Brain in
the process. -/
def Brain.injectNoise (net : Network) (seed : Nat) (amplitude : Nat) : Network × Nat :=
  injectNoiseAux amplitude (List.range net.neurons.length) net seed

/-- The initial value of the function-local static seed of Brain::injectNoise. -/
def injectNoiseSeed0 : Nat := 12345

/-- The Network/UKS pair that Brain owns (the vision subsystem and the bus
presentation bookkeeping are outside the modelled claims). -/
structure BrainState where
  network : Network
  uks : UKS
deriving Repr, DecidableEq

/-- Brain::reset: reset the network; the UKS is deliberately not reset so
learned columns survive (the source also resets the vision pipeline and its
presentation bookkeeping, none of which is modelled). -/
def BrainState.reset (b : BrainState) : BrainState :=
  { network := b.network.reset, uks := b.uks }

/-! ### Shared helper lemmas -/

theorem getElem?_modifyIdx_ne {α : Type} (f : α → α) :
    ∀ (l : List α) (i j : Nat), i ≠ j → (modifyIdx f i l)[j]? = l[j]? := by
  intro l
  induction l with
  | nil => intro i j _; cases i <;> rfl
  | cons x xs ih =>
    intro i j hij
    cases i with
    | zero =>
      cases j with
      | zero => exact absurd rfl hij
      | succ j => simp [modifyIdx]
    | succ i =>
      cases j with
      | zero => simp [modifyIdx]
      | succ j =>
        simp only [modifyIdx, List.getElem?_cons_succ]
        exact ih i j (fun h => hij (by omega))

theorem getElem?_modifyIdx_eq {α : Type} (f : α → α) :
    ∀ (l : List α) (i : Nat), (modifyIdx f i l)[i]? = (l[i]?).map f := by
  intro l
  induction l with
  | nil => intro i; cases i <;> rfl
  | cons x xs ih =>
    intro i
    cases i with
    | zero => simp [modifyIdx]
    | succ i => simpa [modifyIdx] using ih i

theorem length_modifyIdx {α : Type} (f : α → α) :
    ∀ (l : List α) (i : Nat), (modifyIdx f i l).length = l.length := by
  intro l
  induction l with
  | nil => intro i; cases i <;> rfl
  | cons x xs ih =>
    intro i
    cases i with
    | zero => simp [modifyIdx]
    | succ i => simpa [modifyIdx] using ih i

theorem forall_mem_modifyIdx {α : Type} (f : α → α) (P : α → Prop)
    (hf : ∀ a, P a → P (f a)) :
    ∀ (l : List α) (i : Nat), (∀ a ∈ l, P a) → ∀ a ∈ modifyIdx f i l, P a := by
  intro l
  induction l with
  | nil => intro i _ a ha; cases i <;> exact absurd ha (List.not_mem_nil a)
  | cons x xs ih =>
    intro i hl a ha
    cases i with
    | zero =>
      rcases List.mem_cons.mp ha with h | h
      · exact h ▸ hf x (hl x (List.mem_cons_self x xs))
      · exact hl a (List.mem_cons_of_mem x h)
    | succ i =>
      rcases List.mem_cons.mp ha with h | h
      · exact h ▸ hl x (List.mem_cons_self x xs)
      · exact ih i (fun b hb => hl b (List.mem_cons_of_mem x hb)) a h

theorem mem_insertFired (l : List Nat) (j i : Nat) :
    i ∈ insertFired l j ↔ i ∈ l ∨ i = j := by
  unfold insertFired
  split
  · rename_i hj
    constructor
    · exact fun h => Or.inl h
    · rintro (h | rfl)
      · exact h
      · exact hj
  · simp [List.mem_append]

theorem length_insertFired (l : List Nat) (j : Nat) :
    (insertFired l j).length ≤ l.length + 1 := by
  unfold insertFired
  split
  · omega
  · simp

/-! ### Frame lemmas for the firing fold -/

theorem foldFire_fields (t : Int) (ws : List (Int × Nat)) :
    ∀ (net : Network),
      (ws.foldl (fireWinner t) net).chemicals = net.chemicals ∧
      (ws.foldl (fireWinner t) net).synapses = net.synapses ∧
      (ws.foldl (fireWinner t) net).currentTick = net.currentTick ∧
      (ws.foldl (fireWinner t) net).plasticityEnabled = net.plasticityEnabled ∧
      (ws.foldl (fireWinner t) net).operantMode = net.operantMode ∧
      (ws.foldl (fireWinner t) net).razorEnabled = net.razorEnabled ∧
      (ws.foldl (fireWinner t) net).maxSpikesPerTick = net.maxSpikesPerTick ∧
      (ws.foldl (fireWinner t) net).firedLastTick = net.firedLastTick ∧
      (ws.foldl (fireWinner t) net).lastCandidateCount = net.lastCandidateCount := by
  induction ws with
  | nil => intro net; exact ⟨rfl, rfl, rfl, rfl, rfl, rfl, rfl, rfl, rfl⟩
  | cons w ws ih =>
    intro net
    simpa [List.foldl_cons, fireWinner] using ih (fireWinner t net w)

theorem foldFire_fired_length (t : Int) (ws : List (Int × Nat)) :
    ∀ (net : Network),
      (ws.foldl (fireWinner t) net).firedThisTick.length ≤
        net.firedThisTick.length + ws.length := by
  induction ws with
  | nil => intro net; simp
  | cons w ws ih =>
    intro net
    have h1 := ih (fireWinner t net w)
    have h2 := length_insertFired net.firedThisTick w.2
    simp only [List.foldl_cons, List.length_cons]
    calc (ws.foldl (fireWinner t) (fireWinner t net w)).firedThisTick.length
        ≤ (fireWinner t net w).firedThisTick.length + ws.length := h1
      _ ≤ (net.firedThisTick.length + 1) + ws.length := by
          simpa [fireWinner] using Nat.add_le_add_right h2 ws.length
      _ = net.firedThisTick.length + (ws.length + 1) := by omega

theorem foldFire_fired_mem (t : Int) (ws : List (Int × Nat)) :
    ∀ (net : Network) (i : Nat),
      i ∈ (ws.foldl (fireWinner t) net).firedThisTick ↔
        i ∈ net.firedThisTick ∨ i ∈ ws.map Prod.snd := by
  induction ws with
  | nil => intro net i; simp
  | cons w ws ih =>
    intro net i
    rw [List.foldl_cons, ih (fireWinner t net w) i]
    simp only [fireWinner, List.map_cons, List.mem_cons]
    rw [mem_insertFired]
    tauto

theorem foldFire_neurons_ne (t : Int) (ws : List (Int × Nat)) :
    ∀ (net : Network) (i : Nat), i ∉ ws.map Prod.snd →
      (ws.foldl (fireWinner t) net).neurons[i]? = net.neurons[i]? := by
  induction ws with
  | nil => intro net i _; rfl
  | cons w ws ih =>
    intro net i hi
    simp only [List.map_cons, List.mem_cons, not_or] at hi
    rw [List.foldl_cons, ih (fireWinner t net w) i hi.2]
    simp only [fireWinner]
    exact getElem?_modifyIdx_ne _ _ _ _ (fun h => hi.1 (h ▸ rfl))

theorem foldFire_neurons_winner (t : Int) (ws : List (Int × Nat)) :
    ∀ (net : Network), (ws.map Prod.snd).Nodup → ∀ w ∈ ws,
      (ws.foldl (fireWinner t) net).neurons[w.2]? =
        (net.neurons[w.2]?).map (fun n => { n with currentCharge := 0, lastFiredStep := t }) := by
  induction ws with
  | nil => intro net _ w hw; exact absurd hw (List.not_mem_nil w)
  | cons x xs ih =>
    intro net hnd w hw
    have hnd' := hnd
    simp only [List.map_cons, List.nodup_cons] at hnd'
    rcases List.mem_cons.mp hw with rfl | hw'
    · rw [List.foldl_cons, foldFire_neurons_ne t xs (fireWinner t net w) w.2 hnd'.1]
      simp only [fireWinner]
      exact getElem?_modifyIdx_eq _ _ _
    · have hne : x.2 ≠ w.2 := by
        intro h
        exact hnd'.1 (h ▸ List.mem_map_of_mem Prod.snd hw')
      rw [List.foldl_cons, ih (fireWinner t net x) hnd'.2 w hw']
      simp only [fireWinner]
      rw [getElem?_modifyIdx_ne _ _ _ _ hne]

/-! ### Phase frame lemmas -/

theorem leakagePhase_frame (net : Network) :
    (leakagePhase net).chemicals = net.chemicals ∧
    (leakagePhase net).synapses = net.synapses ∧
    (leakagePhase net).currentTick = net.currentTick ∧
    (leakagePhase net).firedThisTick = net.firedThisTick ∧
    (leakagePhase net).firedLastTick = net.firedLastTick ∧
    (leakagePhase net).spikeQueue = net.spikeQueue := by
  exact ⟨rfl, rfl, rfl, rfl, rfl, rfl⟩

theorem integrationPhase_frame (refr : Nat → Bool) (net : Network) :
    (integrationPhase refr net).chemicals = net.chemicals ∧
    (integrationPhase refr net).synapses = net.synapses ∧
    (integrationPhase refr net).currentTick = net.currentTick ∧
    (integrationPhase refr net).firedThisTick = net.firedThisTick ∧
    (integrationPhase refr net).firedLastTick = net.firedLastTick := by
  exact ⟨rfl, rfl, rfl, rfl, rfl⟩

theorem firingPhase_frame (sel : List (Int × Nat) → Nat → List (Int × Nat)) (net : Network) :
    (Network.firingPhase sel net).chemicals = net.chemicals ∧
    (Network.firingPhase sel net).synapses = net.synapses ∧
    (Network.firingPhase sel net).currentTick = net.currentTick ∧
    (Network.firingPhase sel net).plasticityEnabled = net.plasticityEnabled ∧
    (Network.firingPhase sel net).operantMode = net.operantMode ∧
    (Network.firingPhase sel net).firedLastTick = net.firedLastTick := by
  unfold Network.firingPhase
  have h := foldFire_fields net.currentTick
    (if net.razorEnabled ∧ net.maxSpikesPerTick < (firingCandidates net).length
     then sel (firingCandidates net) net.maxSpikesPerTick else firingCandidates net)
    { net with lastCandidateCount := (firingCandidates net).length }
  exact ⟨h.1, h.2.1, h.2.2.1, h.2.2.2.1, h.2.2.2.2.1, h.2.2.2.2.2.2.2.1⟩

theorem plasticityPhase_frame (net : Network) :
    (plasticityPhase net).chemicals = net.chemicals ∧
    (plasticityPhase net).neurons = net.neurons ∧
    (plasticityPhase net).currentTick = net.currentTick ∧
    (plasticityPhase net).firedThisTick = net.firedThisTick ∧
    (plasticityPhase net).spikeQueue = net.spikeQueue ∧
    (plasticityPhase net).operantMode = net.operantMode := by
  unfold plasticityPhase
  split
  · exact ⟨rfl, rfl, rfl, rfl, rfl, rfl⟩
  · exact ⟨rfl, rfl, rfl, rfl, rfl, rfl⟩

/-! ### C9: reset frame -/

/-- C9. Network::reset zeroes the tick, clears the spike queue and both fired
sets, and resets every neuron (charge 0, lastFiredStep = -R-1) while leaving
every synapse (weight, plastic flag, trace) and every UKS column (in
particular its allocated state) untouched, for every state. -/
theorem C9_reset_frame (b : BrainState) :
    (b.reset).network.currentTick = 0 ∧
    (b.reset).network.spikeQueue = [] ∧
    (b.reset).network.firedThisTick = [] ∧
    (b.reset).network.firedLastTick = [] ∧
    (∀ i : Nat, ((b.reset).network.neurons[i]?) = (b.network.neurons[i]?).map
      (fun n => { n with currentCharge := 0, lastFiredStep := -n.refractoryDelay - 1 })) ∧
    (b.reset).network.synapses = b.network.synapses ∧
    (b.reset).uks.columns = b.uks.columns := by
  refine ⟨rfl, rfl, rfl, rfl, ?_, rfl, rfl⟩
  intro i
  cases h : b.network.neurons[i]? with
  | none => simp [BrainState.reset, Network.reset, h]
  | some n => simp [BrainState.reset, Network.reset, h, Neuron.reset]

/-! ### C10: reset preserves eligibility traces -/

/-- C10. Network::reset leaves every synapse's eligibility trace unchanged, so
a later inject_reward produces exactly the synapse array it would have
produced without the intervening reset. -/
theorem C10_reset_traces (net : Network) :
    (∀ i : Nat, ((net.reset).synapses[i]?).map Synapse.eligibilityTrace
        = (net.synapses[i]?).map Synapse.eligibilityTrace) ∧
    (∀ r : Int, ((net.reset).injectReward r).synapses = (net.injectReward r).synapses) := by
  exact ⟨fun i => rfl, fun r => rfl⟩

/-! ### C7: neuromodulator spikes -/

/-- C7 counterexample. Starting from NE = 100 (a level inside [0,100]) and
spiking by the int8_t amount 100, the stored level becomes 0, whereas the
claimed clamp of old + d into [0,100] is 100: the int was narrowed to int8_t
(wrapping 200 to -56) before Neuromodulators::clamp ran. -/
theorem C7_counterexample :
    (Neuromodulators.spikeNorepinephrine
        { Neuromodulators.init with norepinephrine := 100 } 100).norepinephrine = 0 ∧
    clampChem (100 + 100) = 100 := by
  decide

theorem int8wrap_eq_self {x : Int} (h1 : -128 ≤ x) (h2 : x ≤ 127) : int8wrap x = x := by
  unfold int8wrap
  rw [Int.emod_eq_of_lt (by omega) (by omega)]
  omega

theorem clampChem_bounds (x : Int) : 0 ≤ clampChem x ∧ clampChem x ≤ 100 := by
  unfold clampChem
  split
  · omega
  · split <;> omega

/-- C7 amended. Each spike operation stores clamp(int8wrap(old + d), 0, 100):
whenever old + d stays inside int8_t range (no narrowing overflow) the result
is exactly old + d clamped into [0,100] as claimed, and unconditionally - for
every starting state and every amount, overflow included - the stored value of
every channel lies in [0,100] after any spike. -/
theorem C7_spikes_amended (c : Neuromodulators) (d : Int) :
    ((-128 ≤ c.dopamine + d → c.dopamine + d ≤ 127 →
        (c.spikeDopamine d).dopamine = clampChem (c.dopamine + d)) ∧
     (-128 ≤ c.norepinephrine + d → c.norepinephrine + d ≤ 127 →
        (c.spikeNorepinephrine d).norepinephrine = clampChem (c.norepinephrine + d)) ∧
     (-128 ≤ c.serotonin + d → c.serotonin + d ≤ 127 →
        (c.spikeSerotonin d).serotonin = clampChem (c.serotonin + d)) ∧
     (-128 ≤ c.acetylcholine + d → c.acetylcholine + d ≤ 127 →
        (c.spikeAcetylcholine d).acetylcholine = clampChem (c.acetylcholine + d))) ∧
    (0 ≤ (c.spikeDopamine d).dopamine ∧ (c.spikeDopamine d).dopamine ≤ 100) ∧
    (0 ≤ (c.spikeNorepinephrine d).norepinephrine ∧
      (c.spikeNorepinephrine d).norepinephrine ≤ 100) ∧
    (0 ≤ (c.spikeSerotonin d).serotonin ∧ (c.spikeSerotonin d).serotonin ≤ 100) ∧
    (0 ≤ (c.spikeAcetylcholine d).acetylcholine ∧
      (c.spikeAcetylcholine d).acetylcholine ≤ 100) := by
  refine ⟨⟨?_, ?_, ?_, ?_⟩, ?_, ?_, ?_, ?_⟩
  · intro h1 h2
    simp [Neuromodulators.spikeDopamine, Neuromodulators.clamp,
      int8wrap_eq_self h1 h2]
  · intro h1 h2
    simp [Neuromodulators.spikeNorepinephrine, Neuromodulators.clamp,
      int8wrap_eq_self h1 h2]
  · intro h1 h2
    simp [Neuromodulators.spikeSerotonin, Neuromodulators.clamp,
      int8wrap_eq_self h1 h2]
  · intro h1 h2
    simp [Neuromodulators.spikeAcetylcholine, Neuromodulators.clamp,
      int8wrap_eq_self h1 h2]
  · exact clampChem_bounds _
  · exact clampChem_bounds _
  · exact clampChem_bounds _
  · exact clampChem_bounds _

/-- Witness for C7 amended: the no-overflow equality at the baseline state with
d = 20, and the unconditional containment at the overflowing input NE = 100,
d = 100 (the counterexample's own input) with no hypothesis needed. -/
theorem C7_spikes_amended_witness :
    ((-128 ≤ (50 : Int) + 20 ∧ (50 : Int) + 20 ≤ 127) ∧
     (Neuromodulators.init.spikeDopamine 20).dopamine = clampChem (50 + 20)) ∧
    (0 ≤ (({ Neuromodulators.init with norepinephrine := 100 } :
        Neuromodulators).spikeNorepinephrine 100).norepinephrine ∧
     (({ Neuromodulators.init with norepinephrine := 100 } :
        Neuromodulators).spikeNorepinephrine 100).norepinephrine ≤ 100) := by
  refine ⟨⟨by decide, ?_⟩, ?_⟩
  · exact (C7_spikes_amended Neuromodulators.init 20).1.1 (by decide) (by decide)
  · exact (C7_spikes_amended
      { Neuromodulators.init with norepinephrine := 100 } 100).2.2.1

/-! ### C6: inject_reward -/

/-- C6. Network::injectReward(amount): every plastic synapse with a positive
trace gets w := clamp(w + clamp(trace * amount / 50, -16, 16), -16, 16) and its
trace cleared; every non-plastic synapse is entirely unchanged; and (given the
trace-nonnegativity invariant every reachable state satisfies) afterwards
every plastic synapse has trace 0. -/
theorem C6_inject_reward (net : Network) (amount : Int)
    (htr : ∀ s ∈ net.synapses, 0 ≤ s.eligibilityTrace) :
    ((net.injectReward amount).synapses.length = net.synapses.length) ∧
    (∀ i : Nat, ∀ s : Synapse, net.synapses[i]? = some s →
      (s.isHebbian = true → 0 < s.eligibilityTrace →
        (net.injectReward amount).synapses[i]? = some
          { s with
            weight := clampWeight (s.weight + max (-16) (min 16
              (Int.tdiv (s.eligibilityTrace * amount) REWARD_SCALE_FACTOR))),
            eligibilityTrace := 0 }) ∧
      (s.isHebbian = false → (net.injectReward amount).synapses[i]? = some s)) ∧
    (∀ s ∈ (net.injectReward amount).synapses, s.isHebbian = true →
      s.eligibilityTrace = 0) := by
  refine ⟨by simp [Network.injectReward], ?_, ?_⟩
  · intro i s hs
    constructor
    · intro hH htrpos
      simp only [Network.injectReward, List.getElem?_map, hs, Option.map_some, Option.map_some',
        Option.some.injEq]
      have hncond : ¬(s.isHebbian = false ∨ s.eligibilityTrace ≤ 0) := by
        simp [hH]; omega
      unfold Synapse.applyReward
      split
      · rename_i hcond
        exact absurd hcond hncond
      · rfl
    · intro hH
      simp only [Network.injectReward, List.getElem?_map, hs, Option.map_some, Option.map_some',
        Option.some.injEq]
      unfold Synapse.applyReward
      split
      · rfl
      · rename_i hcond
        exact absurd (Or.inl hH) hcond
  · intro s hsmem hH
    rcases List.mem_map.mp hsmem with ⟨s0, hs0, rfl⟩
    have h0 := htr s0 hs0
    have hHpres : (s0.applyReward amount).isHebbian = s0.isHebbian := by
      unfold Synapse.applyReward
      split
      · rfl
      · rfl
    have hHeb : s0.isHebbian = true := by rw [hHpres] at hH; exact hH
    by_cases hpos : 0 < s0.eligibilityTrace
    · have hncond : ¬(s0.isHebbian = false ∨ s0.eligibilityTrace ≤ 0) := by
        simp [hHeb]; omega
      unfold Synapse.applyReward
      split
      · rename_i hcond
        exact absurd hcond hncond
      · rfl
    · have hz : s0.eligibilityTrace = 0 := by omega
      unfold Synapse.applyReward
      split
      · exact hz
      · rfl

/-- Concrete state for the C6 witness: one plastic synapse carrying trace 60
and one non-plastic synapse. -/
def rewardNetC6 : Network :=
  { currentTick := 0, plasticityEnabled := true, operantMode := true,
    razorEnabled := true, maxSpikesPerTick := 100, lastCandidateCount := 0,
    chemicals := Neuromodulators.init, neurons := [],
    synapses :=
      [{ pre := 0, targetNeuronIndex := 1, weight := 0, isHebbian := true,
         eligibilityTrace := 60 },
       { pre := 1, targetNeuronIndex := 0, weight := 3, isHebbian := false,
         eligibilityTrace := 0 }],
    spikeQueue := [], firedThisTick := [], firedLastTick := [] }

/-- Witness for C6 at rewardNetC6 with amount 50. -/
theorem C6_inject_reward_witness :
    (∀ s ∈ rewardNetC6.synapses, 0 ≤ s.eligibilityTrace) ∧
    (∀ s ∈ (rewardNetC6.injectReward 50).synapses, s.isHebbian = true →
      s.eligibilityTrace = 0) := by
  refine ⟨by decide, ?_⟩
  exact (C6_inject_reward rewardNetC6 50 (by decide)).2.2

/-! ### C5: panic reset -/

/-- One quiet neuron holding charge 50 with NE forced to 95 between ticks. -/
def panicNet95 : Network :=
  { currentTick := 0, plasticityEnabled := true, operantMode := false,
    razorEnabled := true, maxSpikesPerTick := 100, lastCandidateCount := 0,
    chemicals := { Neuromodulators.init with norepinephrine := 95 },
    neurons := [{ currentCharge := 50, leakRate := 0, threshold := 1000,
                  lastFiredStep := -1, refractoryDelay := 0 }],
    synapses := [], spikeQueue := [], firedThisTick := [], firedLastTick := [] }

/-- The same state with NE forced to 100. -/
def panicNet100 : Network :=
  { panicNet95 with chemicals := { Neuromodulators.init with norepinephrine := 100 } }

/-- C5 counterexample. With NE spiked to exactly 95 between ticks, the next
step does not panic: Neuromodulators::decay runs before the NE >= 95 check and
lowers NE to 94. In a one-neuron state with charge 50 (threshold 1000, leak 0)
the post-step charge is 45 (the serotonin bonus drained 5), not 0, and NE is
94, not 70 - contradicting the claim that V is zeroed and NE becomes 70. -/
theorem C5_counterexample :
    (Network.step (fun c k => c.take k) panicNet95).getCharge 0 = 45 ∧
    (Network.step (fun c k => c.take k) panicNet95).chemicals.norepinephrine = 94 := by
  constructor
  · decide
  · decide

theorem stepPlasticityGate_chemicals (net : Network) :
    (stepPlasticityGate net).chemicals = net.chemicals := by
  unfold stepPlasticityGate
  split
  · exact (plasticityPhase_frame _).1
  · rfl

theorem stepTraceDecay_chemicals (net : Network) :
    (stepTraceDecay net).chemicals = net.chemicals := by
  unfold stepTraceDecay
  split
  · rfl
  · rfl

/-- C5 amended. If NE is at least 96 before a step - so that it is still at
least 95 when the end-of-tick check runs after the one-step decay toward
baseline - then that step panic-resets: every neuron's membrane potential is
zero, the spike queue and fired-this-tick are empty, and NE is exactly 70. -/
theorem C5_panic_amended (sel : List (Int × Nat) → Nat → List (Int × Nat))
    (net : Network) (hne : 96 ≤ net.chemicals.norepinephrine) :
    (∀ n ∈ (Network.step sel net).neurons, n.currentCharge = 0) ∧
    (Network.step sel net).spikeQueue = [] ∧
    (Network.step sel net).firedThisTick = [] ∧
    (Network.step sel net).chemicals.norepinephrine = 70 := by
  have hc :
      (stepTraceDecay (stepPlasticityGate (Network.firingPhase sel
        (integrationPhase (refrSnapshot (stepBegin net).neurons (stepBegin net).currentTick)
          (leakagePhase (stepBegin net)))))).chemicals = net.chemicals := by
    rw [stepTraceDecay_chemicals, stepPlasticityGate_chemicals,
      (firingPhase_frame _ _).1, (integrationPhase_frame _ _).1, (leakagePhase_frame _).1]
    rfl
  have hdec : 95 ≤ ((stepTraceDecay (stepPlasticityGate (Network.firingPhase sel
      (integrationPhase (refrSnapshot (stepBegin net).neurons (stepBegin net).currentTick)
        (leakagePhase (stepBegin net)))))).chemicals.decay).norepinephrine := by
    rw [hc]
    unfold Neuromodulators.decay
    simp only
    split
    · omega
    · split <;> omega
  unfold Network.step stepTickAdvance stepPanicCheck stepChemDecay
  simp only
  rw [if_pos hdec]
  refine ⟨?_, rfl, rfl, rfl⟩
  intro n hn
  simp only [Network.panicReset, List.mem_map] at hn
  rcases hn with ⟨m, _, rfl⟩
  rfl

/-- Witness for C5 amended: NE = 100, one charged neuron. -/
theorem C5_panic_amended_witness :
    96 ≤ panicNet100.chemicals.norepinephrine ∧
    (Network.step (fun c k => c.take k) panicNet100).chemicals.norepinephrine = 70 := by
  refine ⟨by decide, ?_⟩
  exact (C5_panic_amended (fun c k => c.take k) panicNet100 (by decide)).2.2.2

/-! ### C4: Razor caps the fired set -/

theorem stepPlasticityGate_neurons (net : Network) :
    (stepPlasticityGate net).neurons = net.neurons := by
  unfold stepPlasticityGate
  split
  · exact (plasticityPhase_frame _).2.1
  · rfl

theorem stepTraceDecay_neurons (net : Network) :
    (stepTraceDecay net).neurons = net.neurons := by
  unfold stepTraceDecay
  split
  · rfl
  · rfl

theorem stepPlasticityGate_firedThisTick (net : Network) :
    (stepPlasticityGate net).firedThisTick = net.firedThisTick := by
  unfold stepPlasticityGate
  split
  · exact (plasticityPhase_frame _).2.2.2.1
  · rfl

theorem stepTraceDecay_firedThisTick (net : Network) :
    (stepTraceDecay net).firedThisTick = net.firedThisTick := by
  unfold stepTraceDecay
  split
  · rfl
  · rfl

theorem firingPhase_fired_length (sel : List (Int × Nat) → Nat → List (Int × Nat))
    (net : Network)
    (hsel : ∀ c : List (Int × Nat), ∀ k : Nat, k ≤ c.length → (sel c k).length = k)
    (hrazor : net.razorEnabled = true) :
    (Network.firingPhase sel net).firedThisTick.length ≤
      net.firedThisTick.length + net.maxSpikesPerTick := by
  unfold Network.firingPhase
  have hlen := foldFire_fired_length net.currentTick
    (if net.razorEnabled ∧ net.maxSpikesPerTick < (firingCandidates net).length
     then sel (firingCandidates net) net.maxSpikesPerTick else firingCandidates net)
    { net with lastCandidateCount := (firingCandidates net).length }
  have hwl : (if net.razorEnabled = true ∧ net.maxSpikesPerTick < (firingCandidates net).length
      then sel (firingCandidates net) net.maxSpikesPerTick
      else firingCandidates net).length ≤ net.maxSpikesPerTick := by
    split
    · rename_i hcase
      rw [hsel _ _ (Nat.le_of_lt hcase.2)]
    · rename_i hcase
      rw [hrazor] at hcase
      simp only [true_and, not_lt] at hcase
      exact hcase
  exact le_trans hlen (Nat.add_le_add_left hwl net.firedThisTick.length)

/-- C4. With the Razor enabled, the fired-this-tick set recorded at the end of
any Network::step contains at most maxSpikesPerTick neurons, for every selection
routine meeting the nth_element length contract. -/
theorem C4_razor_cap (sel : List (Int × Nat) → Nat → List (Int × Nat))
    (hsel : ∀ c : List (Int × Nat), ∀ k : Nat, k ≤ c.length → (sel c k).length = k)
    (net : Network) (hrazor : net.razorEnabled = true) :
    (Network.step sel net).firedThisTick.length ≤ net.maxSpikesPerTick := by
  unfold Network.step
  have hfire : (Network.firingPhase sel
      (integrationPhase (refrSnapshot (stepBegin net).neurons (stepBegin net).currentTick)
        (leakagePhase (stepBegin net)))).firedThisTick.length ≤ net.maxSpikesPerTick := by
    have h := firingPhase_fired_length sel
      (integrationPhase (refrSnapshot (stepBegin net).neurons (stepBegin net).currentTick)
        (leakagePhase (stepBegin net))) hsel hrazor
    simpa [integrationPhase, leakagePhase, stepBegin] using h
  unfold stepTickAdvance stepPanicCheck stepChemDecay
  simp only
  split
  · simp [Network.panicReset]
  · rw [stepTraceDecay_firedThisTick, stepPlasticityGate_firedThisTick]
    exact hfire

/-- State for the C4 witness: razor on, K = 1, three ready neurons. -/
def razorNetC4 : Network :=
  { currentTick := 0, plasticityEnabled := true, operantMode := false,
    razorEnabled := true, maxSpikesPerTick := 1, lastCandidateCount := 0,
    chemicals := Neuromodulators.init,
    neurons := List.replicate 3
      { currentCharge := 10, leakRate := 0, threshold := 10,
        lastFiredStep := -6, refractoryDelay := 5 },
    synapses := [], spikeQueue := [], firedThisTick := [], firedLastTick := [] }

/-- Witness for C4: the take-k selector meets the length contract and the
concrete three-candidate state fires at most one neuron. -/
theorem C4_razor_cap_witness :
    (∀ c : List (Int × Nat), ∀ k : Nat, k ≤ c.length →
      ((fun c k => List.take k c) c k).length = k) ∧
    razorNetC4.razorEnabled = true ∧
    (Network.step (fun c k => List.take k c) razorNetC4).firedThisTick.length ≤
      razorNetC4.maxSpikesPerTick := by
  have hsel : ∀ c : List (Int × Nat), ∀ k : Nat, k ≤ c.length →
      ((fun c k => List.take k c) c k).length = k := by
    intro c k h
    simp only [List.length_take]
    omega
  exact ⟨hsel, rfl, C4_razor_cap (fun c k => List.take k c) hsel razorNetC4 rfl⟩

/-! ### C2: membrane potential nonnegativity -/

theorem leakNeuron_nonneg (b t : Int) (n : Neuron) (h : 0 ≤ n.currentCharge) :
    0 ≤ (leakNeuron b t n).currentCharge := by
  unfold leakNeuron
  split
  · exact h
  · dsimp only [Neuron.applyLeak]
    split
    · dsimp only
      split
      · exact le_refl 0
      · rename_i hlt
        exact not_lt.mp hlt
    · exact le_max_left 0 _

theorem foldl_deliverSynapse_nonneg (numNeurons : Nat) (refr : Nat → Bool) :
    ∀ (ss : List Synapse) (ns : List Neuron),
      (∀ s ∈ ss, 0 ≤ s.weight) → (∀ n ∈ ns, 0 ≤ n.currentCharge) →
      ∀ n ∈ ss.foldl (deliverSynapse numNeurons refr) ns, 0 ≤ n.currentCharge := by
  intro ss
  induction ss with
  | nil => intro ns _ h; exact h
  | cons s ss ih =>
    intro ns hw h
    refine ih (deliverSynapse numNeurons refr ns s)
      (fun x hx => hw x (List.mem_cons_of_mem s hx)) ?_
    unfold deliverSynapse
    split
    · refine forall_mem_modifyIdx _ _ ?_ _ _ h
      intro a ha
      have hws := hw s (List.mem_cons_self s ss)
      simp only
      omega
    · exact h

theorem foldl_deliverSpike_nonneg (numNeurons : Nat) (refr : Nat → Bool)
    (synapses : List Synapse) (hw : ∀ s ∈ synapses, 0 ≤ s.weight) :
    ∀ (spikes : List Nat) (ns : List Neuron),
      (∀ n ∈ ns, 0 ≤ n.currentCharge) →
      ∀ n ∈ spikes.foldl (deliverSpike numNeurons refr synapses) ns, 0 ≤ n.currentCharge := by
  intro spikes
  induction spikes with
  | nil => intro ns h; exact h
  | cons p ps ih =>
    intro ns h
    refine ih (deliverSpike numNeurons refr synapses ns p) ?_
    unfold deliverSpike
    split
    · exact h
    · refine foldl_deliverSynapse_nonneg numNeurons refr _ ns ?_ h
      intro s hs
      exact hw s (List.mem_filter.mp hs).1

theorem foldFire_nonneg (t : Int) :
    ∀ (ws : List (Int × Nat)) (net : Network),
      (∀ n ∈ net.neurons, 0 ≤ n.currentCharge) →
      ∀ n ∈ (ws.foldl (fireWinner t) net).neurons, 0 ≤ n.currentCharge := by
  intro ws
  induction ws with
  | nil => intro net h; exact h
  | cons w ws ih =>
    intro net h
    refine ih (fireWinner t net w) ?_
    unfold fireWinner
    refine forall_mem_modifyIdx _ _ ?_ _ _ h
    intro a _
    exact le_refl 0

theorem stepPanicCheck_nonneg (net : Network)
    (h : ∀ n ∈ net.neurons, 0 ≤ n.currentCharge) :
    ∀ n ∈ (stepPanicCheck net).neurons, 0 ≤ n.currentCharge := by
  unfold stepPanicCheck
  split
  · intro n hn
    simp only [Network.panicReset, List.mem_map] at hn
    rcases hn with ⟨m, _, rfl⟩
    exact le_refl 0
  · exact h

/-- C2 counterexample. The claimed invariant V >= 0 after every step fails:
with a single inhibitory synapse of weight -16 from neuron 0 to neuron 1
(threshold 1000, leak 0), injecting a spike into neuron 0 and stepping twice
leaves neuron 1 at charge -16 - integration adds negative weights with no
clamp, and the losing candidate check never clamps either. -/
theorem C2_counterexample :
    (Network.step (fun c k => List.take k c)
      (Network.step (fun c k => List.take k c)
        (Network.injectSpike
          { currentTick := 0, plasticityEnabled := true, operantMode := false,
            razorEnabled := true, maxSpikesPerTick := 100, lastCandidateCount := 0,
            chemicals := Neuromodulators.init,
            neurons :=
              [{ currentCharge := 0, leakRate := 0, threshold := 100,
                 lastFiredStep := -1, refractoryDelay := 0 },
               { currentCharge := 0, leakRate := 0, threshold := 100,
                 lastFiredStep := -1, refractoryDelay := 0 }],
            synapses :=
              [{ pre := 0, targetNeuronIndex := 1, weight := -16,
                 isHebbian := false, eligibilityTrace := 0 }],
            spikeQueue := [], firedThisTick := [], firedLastTick := [] }
          0))).getCharge 1 = -16 := by
  decide

/-- C2 amended. The invariant holds on the inhibition-free fragment: if every
synapse weight is nonnegative and every membrane potential is nonnegative
before a step, then every membrane potential is nonnegative after it (each
phase preserves nonnegativity; only negative synaptic weights or negative
injected charge can push V below zero). -/
theorem C2_nonneg_amended (sel : List (Int × Nat) → Nat → List (Int × Nat))
    (net : Network)
    (hw : ∀ s ∈ net.synapses, 0 ≤ s.weight)
    (hv : ∀ n ∈ net.neurons, 0 ≤ n.currentCharge) :
    ∀ n ∈ (Network.step sel net).neurons, 0 ≤ n.currentCharge := by
  have h1 : ∀ n ∈ (leakagePhase (stepBegin net)).neurons, 0 ≤ n.currentCharge := by
    intro n hn
    simp only [leakagePhase, List.mem_map] at hn
    rcases hn with ⟨m, hm, rfl⟩
    exact leakNeuron_nonneg _ _ m (hv m hm)
  have h2 : ∀ n ∈ (integrationPhase
      (refrSnapshot (stepBegin net).neurons (stepBegin net).currentTick)
      (leakagePhase (stepBegin net))).neurons, 0 ≤ n.currentCharge := by
    intro n hn
    simp only [integrationPhase] at hn
    exact foldl_deliverSpike_nonneg _ _ _ hw _ _ h1 n hn
  have h3 : ∀ n ∈ (Network.firingPhase sel (integrationPhase
      (refrSnapshot (stepBegin net).neurons (stepBegin net).currentTick)
      (leakagePhase (stepBegin net)))).neurons, 0 ≤ n.currentCharge := by
    intro n hn
    dsimp only [Network.firingPhase] at hn
    refine foldFire_nonneg _ _ _ ?_ n hn
    exact fun m hm => h2 m hm
  unfold Network.step stepTickAdvance stepChemDecay
  simp only
  refine stepPanicCheck_nonneg _ ?_
  rw [stepTraceDecay_neurons, stepPlasticityGate_neurons]
  exact h3

/-- State for the C2 witness: one excitatory synapse, both charges zero. -/
def nonnegNetC2 : Network :=
  { currentTick := 0, plasticityEnabled := true, operantMode := false,
    razorEnabled := true, maxSpikesPerTick := 100, lastCandidateCount := 0,
    chemicals := Neuromodulators.init,
    neurons :=
      [{ currentCharge := 7, leakRate := 1, threshold := 100,
         lastFiredStep := -1, refractoryDelay := 0 },
       { currentCharge := 0, leakRate := 0, threshold := 100,
         lastFiredStep := -1, refractoryDelay := 0 }],
    synapses :=
      [{ pre := 0, targetNeuronIndex := 1, weight := 5,
         isHebbian := true, eligibilityTrace := 0 }],
    spikeQueue := [(0, -1)], firedThisTick := [], firedLastTick := [] }

/-- Witness for C2 amended at nonnegNetC2. -/
theorem C2_nonneg_amended_witness :
    (∀ s ∈ nonnegNetC2.synapses, 0 ≤ s.weight) ∧
    (∀ n ∈ nonnegNetC2.neurons, 0 ≤ n.currentCharge) ∧
    (∀ n ∈ (Network.step (fun c k => List.take k c) nonnegNetC2).neurons,
      0 ≤ n.currentCharge) := by
  refine ⟨by decide, by decide, ?_⟩
  exact C2_nonneg_amended (fun c k => List.take k c) nonnegNetC2 (by decide) (by decide)

/-! ### C3: the Razor selection -/

/-- The postcondition the C++ standard guarantees for the nth_element call
followed by resize(K) in Network::firingPhase: the kept prefix has exactly K
entries drawn from the candidate list (candidate ids are pairwise distinct, so
distinct-id entries), and every candidate left out has charge at most that of
every kept entry. Nothing stronger - in particular no tie order - is
guaranteed. -/
def validSelect (cands kept : List (Int × Nat)) (k : Nat) : Prop :=
  kept.length = k ∧ (∀ p ∈ kept, p ∈ cands) ∧ (kept.map Prod.snd).Nodup ∧
  ∀ a ∈ kept, ∀ b ∈ cands, b.2 ∈ kept.map Prod.snd ∨ b.1 ≤ a.1

instance decValidSelect (cands kept : List (Int × Nat)) (k : Nat) :
    Decidable (validSelect cands kept k) := by
  unfold validSelect
  infer_instance

/-- Ordering of the claimed selection, modelled from the spec words: descending
by charge, ties broken in favour of the smaller neuron id. -/
def specLess (a b : Int × Nat) : Bool :=
  b.1 < a.1 || (a.1 == b.1 && a.2 ≤ b.2)

/-- Stable insertion for the spec-words ordering. -/
def specInsert (x : Int × Nat) : List (Int × Nat) → List (Int × Nat)
  | [] => [x]
  | y :: ys => if specLess x y then x :: y :: ys else y :: specInsert x ys

/-- Insertion sort for the spec-words ordering. -/
def specSortDesc : List (Int × Nat) → List (Int × Nat)
  | [] => []
  | x :: xs => specInsert x (specSortDesc xs)

/-- Modelled from the spec: the selection the claim asserts - exactly the K
candidates with the largest charge, ties broken by the smaller neuron id. -/
def specRazorSelect (cands : List (Int × Nat)) (k : Nat) : List (Int × Nat) :=
  (specSortDesc cands).take k

/-- A selection routine satisfying the nth_element contract that keeps the
later of two tied candidates (nth_element may leave any tied arrangement). -/
def revTakeSelect (cands : List (Int × Nat)) (k : Nat) : List (Int × Nat) :=
  cands.reverse.take k

/-- Two disconnected neurons both exactly at their effective threshold, with
the Razor capped at K = 1. -/
def razorTieNet : Network :=
  { currentTick := 0, plasticityEnabled := true, operantMode := false,
    razorEnabled := true, maxSpikesPerTick := 1, lastCandidateCount := 0,
    chemicals := Neuromodulators.init,
    neurons := List.replicate 2
      { currentCharge := 10, leakRate := 0, threshold := 10,
        lastFiredStep := -6, refractoryDelay := 5 },
    synapses := [], spikeQueue := [], firedThisTick := [], firedLastTick := [] }

/-- C3 counterexample. At a two-way tie (both candidates at charge 10) with
K = 1, the arrangement that keeps neuron 1 satisfies everything
std::nth_element guarantees, and the firing phase then fires neuron 1 - yet
the claimed tie-break demands neuron 0 (specRazorSelect keeps (10, 0)). The
charge-only comparator passed to nth_element never looks at neuron ids, so
the smaller-id tie-break is not a property of the code. -/
theorem C3_counterexample :
    validSelect (firingCandidates razorTieNet)
      (revTakeSelect (firingCandidates razorTieNet) 1) 1 ∧
    (Network.firingPhase revTakeSelect razorTieNet).firedThisTick = [1] ∧
    specRazorSelect (firingCandidates razorTieNet) 1 = [(10, 0)] := by
  decide

theorem firingPhase_razor_eq (sel : List (Int × Nat) → Nat → List (Int × Nat))
    (net : Network) (hrazor : net.razorEnabled = true)
    (hover : net.maxSpikesPerTick < (firingCandidates net).length) :
    Network.firingPhase sel net =
      (sel (firingCandidates net) net.maxSpikesPerTick).foldl
        (fireWinner net.currentTick)
        { net with lastCandidateCount := (firingCandidates net).length } := by
  simp only [Network.firingPhase]
  rw [if_pos ⟨hrazor, hover⟩]

theorem foldFire_getCharge_winner (t : Int) (ws : List (Int × Nat)) (net : Network)
    (hnd : (ws.map Prod.snd).Nodup) (w : Int × Nat) (hw : w ∈ ws) :
    Network.getCharge (ws.foldl (fireWinner t) net) w.2 = 0 := by
  unfold Network.getCharge
  rw [foldFire_neurons_winner t ws net hnd w hw]
  cases net.neurons[w.2]? <;> rfl

theorem foldFire_getCharge_ne (t : Int) (ws : List (Int × Nat)) (net : Network)
    (i : Nat) (hi : i ∉ ws.map Prod.snd) :
    Network.getCharge (ws.foldl (fireWinner t) net) i = Network.getCharge net i := by
  unfold Network.getCharge
  rw [foldFire_neurons_ne t ws net i hi]

/-- C3 amended. When the Razor is enabled and there are more candidates than
K = maxSpikesPerTick, any selection consistent with the nth_element contract
fires exactly K candidates whose charges are all at least the charge of every
non-selected candidate (so the fired multiset of charges is a top-K multiset);
every non-selected candidate retains its charge unchanged through the firing
phase; every selected candidate's charge becomes 0; and the fired set is
exactly the previous fired set plus the selected ids. Which ids among
equal-charge ties survive is not determined by the code. -/
theorem C3_razor_amended (sel : List (Int × Nat) → Nat → List (Int × Nat))
    (net : Network) (hrazor : net.razorEnabled = true)
    (hover : net.maxSpikesPerTick < (firingCandidates net).length)
    (hv : validSelect (firingCandidates net)
      (sel (firingCandidates net) net.maxSpikesPerTick) net.maxSpikesPerTick) :
    (sel (firingCandidates net) net.maxSpikesPerTick).length = net.maxSpikesPerTick ∧
    (∀ a ∈ sel (firingCandidates net) net.maxSpikesPerTick,
      ∀ b ∈ firingCandidates net,
        b.2 ∈ (sel (firingCandidates net) net.maxSpikesPerTick).map Prod.snd ∨
          b.1 ≤ a.1) ∧
    (∀ b ∈ firingCandidates net,
      b.2 ∉ (sel (firingCandidates net) net.maxSpikesPerTick).map Prod.snd →
        (Network.firingPhase sel net).getCharge b.2 = net.getCharge b.2) ∧
    (∀ a ∈ sel (firingCandidates net) net.maxSpikesPerTick,
      (Network.firingPhase sel net).getCharge a.2 = 0) ∧
    (∀ i : Nat, i ∈ (Network.firingPhase sel net).firedThisTick ↔
      i ∈ net.firedThisTick ∨
        i ∈ (sel (firingCandidates net) net.maxSpikesPerTick).map Prod.snd) := by
  refine ⟨hv.1, hv.2.2.2, ?_, ?_, ?_⟩
  · intro b _ hnotin
    rw [firingPhase_razor_eq sel net hrazor hover]
    exact foldFire_getCharge_ne _ _ _ _ hnotin
  · intro a ha
    rw [firingPhase_razor_eq sel net hrazor hover]
    exact foldFire_getCharge_winner _ _ _ hv.2.2.1 a ha
  · intro i
    rw [firingPhase_razor_eq sel net hrazor hover]
    exact foldFire_fired_mem _ _ _ i

/-- Witness for C3 amended at razorTieNet with the take-1 selection. -/
theorem C3_razor_amended_witness :
    (razorTieNet.razorEnabled = true ∧
     razorTieNet.maxSpikesPerTick < (firingCandidates razorTieNet).length ∧
     validSelect (firingCandidates razorTieNet)
       ((fun c k => List.take k c) (firingCandidates razorTieNet)
         razorTieNet.maxSpikesPerTick) razorTieNet.maxSpikesPerTick) ∧
    ((fun c k => List.take k c) (firingCandidates razorTieNet)
      razorTieNet.maxSpikesPerTick).length = razorTieNet.maxSpikesPerTick := by
  refine ⟨⟨rfl, by decide, by decide⟩, ?_⟩
  exact (C3_razor_amended (fun c k => List.take k c) razorTieNet rfl
    (by decide) (by decide)).1

/-! ### C1: determinism and the noise streams -/

/-- The number of non-refractory neurons with a smaller id: how many times the
sequential candidate loop advances the tick-seeded LCG before reaching a given
neuron. -/
def countNonRefrBefore (t : Int) (ns : List Neuron) (i : Nat) : Nat :=
  ((ns.take i).filter (fun n => !n.isRefractory t)).length

/-- The noise the sequential firing loop hands the (k+1)-th non-refractory
neuron: the (k+1)-th LCG iterate of the tick seed, masked and centred. -/
def seqNoise (a : Nat) (s : Nat) (k : Nat) : Int :=
  noiseOf a (lcgIter (k + 1) s)

/-- One quiet neuron for exercising Brain::injectNoise. -/
def noiseNetC1 : Network :=
  { currentTick := 0, plasticityEnabled := true, operantMode := false,
    razorEnabled := true, maxSpikesPerTick := 100, lastCandidateCount := 0,
    chemicals := Neuromodulators.init,
    neurons := [{ currentCharge := 0, leakRate := 0, threshold := 1000,
                  lastFiredStep := -1, refractoryDelay := 0 }],
    synapses := [], spikeQueue := [], firedThisTick := [], firedLastTick := [] }

/-- C1 counterexample. Brain::injectNoise draws from a function-local static
LCG seed shared by every call (and every Brain) in the process: two successive
calls at the same tick, for the same neuron 0 and the same program-start seed
12345, add +2 and then -5. The noise is therefore a function of the mutable
shared seed state, not of (current_tick, neuron_id, fixed_seed): the tick is
unchanged (third conjunct) yet the two draws differ. -/
theorem C1_counterexample :
    (Brain.injectNoise noiseNetC1 injectNoiseSeed0 5).1.getCharge 0 = 2 ∧
    (Brain.injectNoise (Brain.injectNoise noiseNetC1 injectNoiseSeed0 5).1
      (Brain.injectNoise noiseNetC1 injectNoiseSeed0 5).2 5).1.getCharge 0 = 2 + -5 ∧
    (Brain.injectNoise noiseNetC1 injectNoiseSeed0 5).1.currentTick =
      noiseNetC1.currentTick := by
  refine ⟨by decide, by decide, by decide⟩

theorem collectCandsAux_id_lb (t red : Int) (a : Nat) :
    ∀ (ns : List Neuron) (s0 seed : Nat) (p : Int × Nat),
      p ∈ collectCandsAux t red a ns s0 seed → s0 ≤ p.2 := by
  intro ns
  induction ns with
  | nil =>
    intro s0 seed p hp
    exact absurd hp (List.not_mem_nil p)
  | cons m rest ih =>
    intro s0 seed p hp
    unfold collectCandsAux at hp
    split at hp
    · exact Nat.le_of_succ_le (ih (s0 + 1) seed p hp)
    · dsimp only at hp
      by_cases hA : 0 < a
      · simp only [if_pos hA] at hp
        split at hp
        · rcases List.mem_cons.mp hp with rfl | hp'
          · exact Nat.le_refl s0
          · exact Nat.le_of_succ_le (ih (s0 + 1) _ p hp')
        · exact Nat.le_of_succ_le (ih (s0 + 1) _ p hp)
      · simp only [if_neg hA] at hp
        split at hp
        · rcases List.mem_cons.mp hp with rfl | hp'
          · exact Nat.le_refl s0
          · exact Nat.le_of_succ_le (ih (s0 + 1) _ p hp')
        · exact Nat.le_of_succ_le (ih (s0 + 1) _ p hp)

theorem collectCandsAux_mem_iff (t red : Int) (a : Nat) (ha : 0 < a) :
    ∀ (ns : List Neuron) (s0 seed i : Nat) (n : Neuron),
      ns[i]? = some n → n.isRefractory t = false →
      ((n.currentCharge, s0 + i) ∈ collectCandsAux t red a ns s0 seed ↔
        effThreshold n.threshold red
          (noiseOf a (lcgIter (countNonRefrBefore t ns i + 1) seed)) ≤ n.currentCharge) := by
  intro ns
  induction ns with
  | nil =>
    intro s0 seed i n hn _
    simp at hn
  | cons m rest ih =>
    intro s0 seed i n hn hnr
    cases i with
    | zero =>
      rw [List.getElem?_cons_zero] at hn
      injection hn with hmn
      subst hmn
      have hcnt : countNonRefrBefore t (m :: rest) 0 = 0 := rfl
      rw [hcnt]
      unfold collectCandsAux
      rw [if_neg (by simp [hnr])]
      dsimp only
      simp only [if_pos ha]
      split
      · rename_i hle
        constructor
        · intro _
          exact hle
        · intro _
          exact List.mem_cons_self _ _
      · rename_i hgt
        constructor
        · intro hmem
          have hlb := collectCandsAux_id_lb t red a rest (s0 + 1) (lcg seed) _ hmem
          have : s0 + 1 ≤ s0 := hlb
          omega
        · intro hle
          exact absurd hle hgt
    | succ j =>
      rw [List.getElem?_cons_succ] at hn
      unfold collectCandsAux
      cases hrefr : m.isRefractory t with
      | true =>
        rw [if_pos rfl]
        have hcnt : countNonRefrBefore t (m :: rest) (j + 1) = countNonRefrBefore t rest j := by
          unfold countNonRefrBefore
          rw [List.take_succ_cons, List.filter_cons_of_neg (by simp [hrefr])]
        rw [hcnt]
        have hidx : s0 + (j + 1) = (s0 + 1) + j := by omega
        rw [hidx]
        exact ih (s0 + 1) seed j n hn hnr
      | false =>
        rw [if_neg (by simp)]
        dsimp only
        simp only [if_pos ha]
        have hcnt : countNonRefrBefore t (m :: rest) (j + 1)
            = countNonRefrBefore t rest j + 1 := by
          unfold countNonRefrBefore
          rw [List.take_succ_cons, List.filter_cons_of_pos (by simp [hrefr])]
          rfl
        rw [hcnt]
        have hiter : lcgIter (countNonRefrBefore t rest j + 1 + 1) seed
            = lcgIter (countNonRefrBefore t rest j + 1) (lcg seed) := rfl
        rw [hiter]
        have hidx : s0 + (j + 1) = (s0 + 1) + j := by omega
        rw [hidx]
        split
        · rename_i hle
          rw [List.mem_cons, or_iff_right ?hne]
          case hne =>
            intro h
            have h2 := congrArg Prod.snd h
            simp only at h2
            omega
          exact ih (s0 + 1) (lcg seed) j n hn hnr
        · exact ih (s0 + 1) (lcg seed) j n hn hnr

/-- C1 amended. Within one step the firing-phase noise stream is fully
deterministic, but it is a pure function of (current_tick, NE, and the number
of non-refractory lower-id neurons), not of (current_tick, neuron_id, seed)
alone: when the amplitude is positive, a non-refractory neuron i is a
candidate exactly when its charge reaches the effective threshold built from
the (k+1)-th LCG iterate of the tick seed, where k counts the non-refractory
neurons below i (so changing a lower neuron's refractory state shifts the
noise every later neuron receives). The inject_noise stream is likewise an
LCG, but threaded through a persistent shared seed (see the counterexample). -/
theorem C1_noise_amended (net : Network) (i : Nat) (n : Neuron)
    (hn : net.neurons[i]? = some n)
    (hnr : n.isRefractory net.currentTick = false)
    (hA : 0 < noiseAmplitude net.chemicals.norepinephrine) :
    ((n.currentCharge, i) ∈ firingCandidates net ↔
      effThreshold n.threshold (thresholdReduction net.chemicals.norepinephrine)
        (seqNoise (noiseAmplitude net.chemicals.norepinephrine) (seed0 net.currentTick)
          (countNonRefrBefore net.currentTick net.neurons i)) ≤ n.currentCharge) := by
  have h := collectCandsAux_mem_iff net.currentTick
    (thresholdReduction net.chemicals.norepinephrine)
    (noiseAmplitude net.chemicals.norepinephrine) hA net.neurons 0
    (seed0 net.currentTick) i n hn hnr
  rw [Nat.zero_add] at h
  exact h

/-- One ready neuron under NE = 100 (noise amplitude 10). -/
def noiseFireNetC1 : Network :=
  { currentTick := 0, plasticityEnabled := true, operantMode := false,
    razorEnabled := true, maxSpikesPerTick := 100, lastCandidateCount := 0,
    chemicals := { Neuromodulators.init with norepinephrine := 100 },
    neurons := [{ currentCharge := 50, leakRate := 0, threshold := 40,
                  lastFiredStep := -1, refractoryDelay := 0 }],
    synapses := [], spikeQueue := [], firedThisTick := [], firedLastTick := [] }

/-- Witness for C1 amended at noiseFireNetC1, neuron 0. -/
theorem C1_noise_amended_witness :
    (noiseFireNetC1.neurons[0]? = some
      { currentCharge := 50, leakRate := 0, threshold := 40,
        lastFiredStep := -1, refractoryDelay := 0 } ∧
     ({ currentCharge := 50, leakRate := 0, threshold := 40,
        lastFiredStep := -1, refractoryDelay := 0 } : Neuron).isRefractory
          noiseFireNetC1.currentTick = false ∧
     0 < noiseAmplitude noiseFireNetC1.chemicals.norepinephrine) ∧
    (((50 : Int), (0 : Nat)) ∈ firingCandidates noiseFireNetC1 ↔
      effThreshold 40 (thresholdReduction noiseFireNetC1.chemicals.norepinephrine)
        (seqNoise (noiseAmplitude noiseFireNetC1.chemicals.norepinephrine)
          (seed0 noiseFireNetC1.currentTick)
          (countNonRefrBefore noiseFireNetC1.currentTick noiseFireNetC1.neurons 0)) ≤ 50) := by
  refine ⟨⟨rfl, by decide, by decide⟩, ?_⟩
  exact C1_noise_amended noiseFireNetC1 0 _ rfl (by decide) (by decide)

/-! ### C8: novelty allocation -/

theorem findFreeAux_spec :
    ∀ (cs : List CorticalColumn) (s0 k : Nat), findFreeAux cs s0 = some k →
      ∃ j : Nat, k = s0 + j ∧
        (∃ c, cs[j]? = some c ∧ c.isAllocated = false) ∧
        ∀ i : Nat, i < j → ∀ c2, cs[i]? = some c2 → c2.isAllocated = true := by
  intro cs
  induction cs with
  | nil =>
    intro s0 k h
    exact absurd h (by simp [findFreeAux])
  | cons c cs ih =>
    intro s0 k h
    unfold findFreeAux at h
    split at h
    · rename_i hfreec
      injection h with hk
      refine ⟨0, by omega, ⟨c, by simp, ?_⟩, ?_⟩
      · simpa using hfreec
      · intro i hi
        omega
    · rename_i hallocc
      rcases ih (s0 + 1) k h with ⟨j, hkj, ⟨c0, hc0, hc0f⟩, hlow⟩
      refine ⟨j + 1, by omega, ⟨c0, by simpa using hc0, hc0f⟩, ?_⟩
      intro i hi c2 hc2
      cases i with
      | zero =>
        rw [List.getElem?_cons_zero] at hc2
        injection hc2 with hc2e
        subst hc2e
        simpa using hallocc
      | succ i2 =>
        rw [List.getElem?_cons_succ] at hc2
        exact hlow i2 (by omega) c2 hc2

theorem countP_modifyIdx_alloc (f : CorticalColumn → CorticalColumn)
    (hf : ∀ x, (f x).isAllocated = true) :
    ∀ (cs : List CorticalColumn) (k : Nat) (c : CorticalColumn),
      cs[k]? = some c → c.isAllocated = false →
      (modifyIdx f k cs).countP (fun x => x.isAllocated) =
        cs.countP (fun x => x.isAllocated) + 1 := by
  intro cs
  induction cs with
  | nil =>
    intro k c hc _
    simp at hc
  | cons x xs ih =>
    intro k c hc hfree
    cases k with
    | zero =>
      rw [List.getElem?_cons_zero] at hc
      injection hc with hce
      subst hce
      simp [modifyIdx, List.countP_cons, hf, hfree]
    | succ k2 =>
      rw [List.getElem?_cons_succ] at hc
      simp only [modifyIdx, List.countP_cons]
      rw [ih k2 c hc hfree]
      omega

theorem countP_alloc_map_active (cs : List CorticalColumn) (g : Nat → Bool) :
    (cs.map (fun c => { c with isActive := g c.outputNeuron })).countP
        (fun x => x.isAllocated) = cs.countP (fun x => x.isAllocated) := by
  induction cs with
  | nil => rfl
  | cons c cs ih =>
    simp only [List.map_cons, List.countP_cons, ih]

/-- Two columns over a ten-neuron network: column 0 (output neuron 3) already
allocated, column 1 (output neuron 6) free; request neuron 8; bus 0-1. -/
def uksC8 : UKS :=
  { config := { numColumns := 2, busWidth := 2, recognitionThreshold := 12,
                enableLearning := true },
    columns :=
      [{ columnId := 0, inputNeurons := [2], pyramidalNeurons := [],
         outputNeuron := 3, inhibitoryNeuron := 4, isAllocated := true,
         isActive := false, boostValue := 0, allocatedAtTick := 0,
         activationCount := 0 },
       { columnId := 1, inputNeurons := [5], pyramidalNeurons := [],
         outputNeuron := 6, inhibitoryNeuron := 7, isAllocated := false,
         isActive := false, boostValue := 0, allocatedAtTick := 0,
         activationCount := 0 }],
    busNeurons := [0, 1], requestNeuron := 8, globalInhibitor := 9,
    currentInput := [0], activeColumn := none, requestFired := false,
    totalAllocations := 1, totalRecognitions := 0 }

/-- Network state in which both column 0's output neuron (3) and the Request
neuron (8) fired this tick. -/
def netC8 : Network :=
  { currentTick := 3, plasticityEnabled := true, operantMode := false,
    razorEnabled := true, maxSpikesPerTick := 100, lastCandidateCount := 0,
    chemicals := Neuromodulators.init,
    neurons := List.replicate 10
      { currentCharge := 0, leakRate := 0, threshold := 100,
        lastFiredStep := -1, refractoryDelay := 0 },
    synapses := [], spikeQueue := [], firedThisTick := [3, 8],
    firedLastTick := [] }

/-- The same network with only the Request neuron fired. -/
def netC8req : Network := { netC8 with firedThisTick := [8] }

/-- C8 counterexample. The Request neuron fired on this tick, the bus pattern
is non-empty, a free column exists and learning is enabled - every premise of
the claim - yet allocated_count stays at 1 instead of becoming 2: an allocated
column's output fired on the same tick, so UKS::step takes the recognition
branch and never consults the Request neuron. The claim omits the
"no allocated column fired" condition of the novelty branch. -/
theorem C8_counterexample :
    netC8.didFire uksC8.requestNeuron = true ∧
    uksC8.config.enableLearning = true ∧
    uksC8.currentInput ≠ [] ∧
    uksC8.findFreeColumn = some 1 ∧
    uksC8.getAllocatedCount = 1 ∧
    (uksC8.step netC8).1.getAllocatedCount = 1 := by
  refine ⟨by decide, by decide, by decide, by decide, by decide, by decide⟩

/-- C8 amended. If on tick t no allocated column's output fired and the
Request neuron fired, with a non-empty current input, learning enabled and a
free column available, then UKS::step allocates exactly one column: the
allocated count rises by exactly one, the chosen column is the lowest-index
free one (every column below it was already allocated), it becomes the active
column and is now allocated, and current_input is cleared so the same
presentation cannot allocate again. -/
theorem C8_allocation_amended (uks : UKS) (net : Network)
    (hnoresp : uks.getRespondingColumns net = [])
    (hreq : net.didFire uks.requestNeuron = true)
    (hlearn : uks.config.enableLearning = true)
    (hinput : uks.currentInput ≠ [])
    (k : Nat) (hfree : uks.findFreeColumn = some k) :
    ((uks.step net).1.getAllocatedCount = uks.getAllocatedCount + 1) ∧
    ((uks.step net).1.activeColumn = some k) ∧
    ((uks.step net).1.currentInput = []) ∧
    (∀ c, (uks.step net).1.columns[k]? = some c → c.isAllocated = true) ∧
    (∀ j : Nat, j < k → ∀ c, uks.columns[j]? = some c → c.isAllocated = true) := by
  rcases findFreeAux_spec uks.columns 0 k hfree with ⟨j, hkj, ⟨col, hcol, hcolfree⟩, hlow⟩
  have hjk : j = k := by omega
  subst hjk
  have hstep : uks.step net =
      (let uks1 : UKS := { uks with requestFired := true }
       let net2 : Network :=
         { (net.surpriseSignal 50) with chemicals :=
             (net.surpriseSignal 50).chemicals.spikeAcetylcholine 30 }
       let pr := uks1.allocateColumn net2 j uks.currentInput
       let uks2 := { pr.1 with activeColumn := some j, currentInput := [] }
       let net3 := { pr.2 with chemicals := pr.2.chemicals.spikeDopamine 30 }
       (uks2.updateActiveFlags net3, net3)) := by
    unfold UKS.step
    rw [hnoresp]
    dsimp only
    rw [hreq]
    rw [if_pos rfl, if_pos ⟨hlearn, hinput⟩]
    have hfree1 : UKS.findFreeColumn { uks with requestFired := true } = some j := hfree
    rw [hfree1]
  have hcols1 : ∀ net2 : Network,
      (UKS.allocateColumn { uks with requestFired := true } net2 j uks.currentInput).1.columns =
        modifyIdx
          (fun c : CorticalColumn => { c with isAllocated := true, allocatedAtTick := net2.currentTick })
          j uks.columns := by
    intro net2
    unfold UKS.allocateColumn
    have hcol1 : ({ uks with requestFired := true } : UKS).columns[j]? = some col := hcol
    rw [hcol1]
  rw [hstep]
  dsimp only
  refine ⟨?_, rfl, rfl, ?_, fun j2 hj2 c hc => hlow j2 hj2 c hc⟩
  · unfold UKS.getAllocatedCount UKS.updateActiveFlags
    dsimp only
    rw [hcols1 _]
    rw [countP_alloc_map_active]
    exact countP_modifyIdx_alloc _ (fun x => rfl) uks.columns j col hcol hcolfree
  · intro c hc
    unfold UKS.updateActiveFlags at hc
    dsimp only at hc
    rw [hcols1 _] at hc
    rw [List.getElem?_map, getElem?_modifyIdx_eq, hcol] at hc
    simp only [Option.map_some, Option.map_some', Option.some.injEq] at hc
    rw [← hc]

/-- Witness for C8 amended: the same two-column store, but on a tick where
only the Request neuron fired; the free column 1 is allocated. -/
theorem C8_allocation_amended_witness :
    (uksC8.getRespondingColumns netC8req = [] ∧
     netC8req.didFire uksC8.requestNeuron = true ∧
     uksC8.config.enableLearning = true ∧
     uksC8.currentInput ≠ [] ∧
     uksC8.findFreeColumn = some 1) ∧
    ((uksC8.step netC8req).1.getAllocatedCount = uksC8.getAllocatedCount + 1 ∧
     (uksC8.step netC8req).1.activeColumn = some 1 ∧
     (uksC8.step netC8req).1.currentInput = []) := by
  refine ⟨⟨by decide, by decide, by decide, by decide, by decide⟩, ?_⟩
  have h := C8_allocation_amended uksC8 netC8req (by decide) (by decide)
    (by decide) (by decide) 1 (by decide)
  exact ⟨h.1, h.2.1, h.2.2.1⟩

end BPAGI
